import Mathlib

/-!
Verification of the tokeniser-tagger web tool (src/app.py) against its
natural-language specification.

The Python source is shallowly embedded below.  Pure string manipulation is
translated to Lean functions over `String` / `List Char`; the external NLP
libraries (fugashi, NLTK) are modelled as abstract function parameters, since
the first-party code only depends on the shape of their results; the per-file
processing loop of the user interface is modelled as a fold over the ordered
list of uploaded files; the in-memory zip archive is modelled as the ordered
list of members written by `zipfile.ZipFile.writestr`, each carrying the
member name, the UTF-8 content bytes, and the wall-clock timestamp that
`writestr` records in the archive headers.

Modelling conventions, stated once:
* Character classes of the Python `re` and `str` operations are modelled on
  their ASCII portion (`Char.isAlphanum`, `Char.isDigit`, the six ASCII
  whitespace characters recognised by `str.strip`); every claim settled below
  is insensitive to the non-ASCII part of these classes.
* `os.path.splitext` is modelled after its posixpath implementation, the one
  in effect on the deployment platform.
-/

/-- A (token, part-of-speech, lemma) triple, the unit produced by both
tagging functions in src/app.py (a three-element Python list there).
The third field is named with a trailing tick because `lemma` is a
reserved word in Lean. -/
structure TaggedToken where
  token : String
  pos : String
  lemma' : String
deriving DecidableEq, Repr

/-! ## Line formatter (src/app.py lines 139-145) -/

/-- src/app.py line 141: the per-token line of the TreeTagger format,
token TAB pos TAB lemma, built by plain interpolation with no escaping. -/
def formatLine (t : TaggedToken) : String :=
  t.token ++ "\t" ++ t.pos ++ "\t" ++ t.lemma'

/-- Python `sep.join(xs)`: the empty string on an empty list, otherwise the
elements separated by `sep`. -/
def pyJoin (sep : String) : List String → String
  | [] => ""
  | [x] => x
  | x :: y :: xs => x ++ sep ++ pyJoin sep (y :: xs)

/-- src/app.py lines 138-145: the content block, per-token lines joined
with newline. -/
def formatBlock (ts : List TaggedToken) : String :=
  pyJoin "\n" (ts.map formatLine)

/-! ## Filename sanitizer (src/app.py lines 130-132 and 163-164) -/

/-- The ASCII whitespace characters stripped by Python `str.strip()`. -/
def pyIsSpace (c : Char) : Bool :=
  c = ' ' || c = '\t' || c = '\n' || c = '\r' || c = '\x0b' || c = '\x0c'

/-- Python `str.strip()`: remove whitespace from both ends. -/
def pyStrip (l : List Char) : List Char :=
  ((l.dropWhile pyIsSpace).reverse.dropWhile pyIsSpace).reverse

/-- Index of the last occurrence of a character, accumulator version. -/
def lastIndexOfAux : List Char → Char → Nat → Option Nat → Option Nat
  | [], _, _, acc => acc
  | x :: xs, t, i, acc => lastIndexOfAux xs t (i + 1) (if x = t then some i else acc)

/-- Index of the last occurrence of a character in a character list. -/
def lastIndexOf (l : List Char) (t : Char) : Option Nat :=
  lastIndexOfAux l t 0 none

/-- `os.path.splitext(p)[0]` after the posixpath implementation: the part
before the extension dot, where the extension dot is the last dot that lies
after the last path separator and has at least one non-dot character between
the separator and itself (so dotfiles keep their name whole). -/
def splitextBaseChars (p : List Char) : List Char :=
  let sepIdx := lastIndexOf p '/'
  let dotIdx := lastIndexOf p '.'
  match dotIdx with
  | none => p
  | some d =>
    let start : Nat := match sepIdx with | none => 0 | some i => i + 1
    let sepLt : Bool := match sepIdx with | none => true | some i => decide (i < d)
    if sepLt && (List.range' start (d - start)).any (fun k => !(p.getD k ' ' == '.')) then
      p.take d
    else p

/-- Helper for the regex of src/app.py line 132: given the reversed string,
try to strip a reversed occurrence of space, open parenthesis, one or more
digits, close parenthesis; return the remaining reversed characters. -/
def dropDupPatternRev (r : List Char) : Option (List Char) :=
  match r with
  | c :: rest =>
    if c = ')' then
      let digits := rest.takeWhile Char.isDigit
      let rest2 := rest.dropWhile Char.isDigit
      if digits = [] then none
      else
        match rest2 with
        | c1 :: c2 :: rest3 => if c1 = '(' ∧ c2 = ' ' then some rest3 else none
        | _ => none
    else none
  | [] => none

/-- src/app.py line 132: Python `re.sub` of a space, an open parenthesis,
one or more digits, a close parenthesis, followed by the dollar anchor.
In Python (without MULTILINE) the dollar matches at the end of the string
and also just before a newline that ends the string, so both positions are
tried; the match, if any, is removed. -/
def reSubDupChars (l : List Char) : List Char :=
  match l.reverse with
  | c :: r1 =>
    if c = '\n' then
      match dropDupPatternRev r1 with
      | some rest => ('\n' :: rest).reverse
      | none => l
    else
      match dropDupPatternRev (c :: r1) with
      | some rest => rest.reverse
      | none => l
  | [] => l

/-- src/app.py lines 130-132 (and identically lines 163-164): drop the file
extension, remove a trailing duplicate-upload marker via the regex, strip
surrounding whitespace. -/
def sanitizeId (originalFilename : String) : String :=
  String.mk (pyStrip (reSubDupChars (splitextBaseChars originalFilename.data)))

/-! ## XML content builder (src/app.py lines 124-150) -/

/-- src/app.py lines 124-150, `create_xml_content`: an opening corpus line
carrying the language code and the sanitized id, the tab-separated content
block, and a closing line that repeats the attributes, all joined with
newline. -/
def createXmlContent (dataList : List TaggedToken) (originalFilename : String)
    (langCode : String) : String :=
  let sanitizedId := sanitizeId originalFilename
  let openTag := "<corpus lang=\"" ++ langCode ++ "\" id=\"" ++ sanitizedId ++ "\">"
  let closeTag := "</corpus lang=\"" ++ langCode ++ "\" id=\"" ++ sanitizedId ++ "\">"
  pyJoin "\n" [openTag, formatBlock dataList, closeTag]

/-! ## Zip archive builder (src/app.py lines 153-171) -/

/-- The UTF-8 bytes of a string, the pure form of `String.toUTF8`. -/
def utf8Bytes (s : String) : List UInt8 :=
  s.data.flatMap String.utf8EncodeChar

/-- One member written into the in-memory zip archive by
`zipfile.ZipFile.writestr` (src/app.py line 168).  Besides the member name
and the content bytes, `writestr` stamps the member with the current local
time (`ZipInfo(filename=name, date_time=time.localtime(time.time())[:6])`
in the zipfile library), and that six-tuple is serialized into the local
file header and the central directory of the archive, so it is part of the
archive bytes. -/
structure ZipMember where
  name : String
  content : List UInt8
  dateTime : List Nat
deriving DecidableEq, Repr

/-- src/app.py lines 153-171, `create_zip_archive`: one member per entry of
the ordered output mapping, in order.  The member name is the sanitized base
name with the suffix appended (lines 163-165, the same sanitization as in
`create_xml_content`), the content is the XML string encoded as UTF-8, and
the timestamp is the clock reading passed in. -/
def createZipArchive (now : List Nat) (outputData : List (String × List TaggedToken))
    (langCode : String) : List ZipMember :=
  outputData.map (fun p =>
    ZipMember.mk (sanitizeId p.1 ++ "_tagged.xml")
      (utf8Bytes (createXmlContent p.2 p.1 langCode)) now)

/-- What remains on disk after extracting an archive: members are extracted
in order and a member whose name was already written overwrites the earlier
file, so for each name the last-written content survives.  (Python `zipfile`
appends a second raw entry under the duplicate name; every common extractor
then lets the later entry win.)  Used to state the documented last-write-wins
behaviour of the spec. -/
def dictInsert {α : Type} (d : List (String × α)) (k : String) (v : α) :
    List (String × α) :=
  if d.any (fun p => p.1 == k) then
    d.map (fun p => if p.1 == k then (k, v) else p)
  else d ++ [(k, v)]

/-- The surviving (name, content) pairs after extraction, last write wins. -/
def zipExtracted (members : List ZipMember) : List (String × List UInt8) :=
  members.foldl (fun acc m => dictInsert acc m.name m.content) []

/-! ## English tagging (src/app.py lines 93-119) -/

/-- Python regex word character, ASCII portion: alphanumeric or underscore. -/
def isWordChar (c : Char) : Bool :=
  c.isAlphanum || c = '_'

/-- Character class for the tokenizing regex of src/app.py line 101:
0 = word character, 1 = whitespace, 2 = anything else. -/
def tokClass (c : Char) : Nat :=
  if isWordChar c then 0 else if pyIsSpace c then 1 else 2

/-- Maximal runs of characters of equal class, accumulating the current run
in reverse.  `re.findall` of word-or-nonspace alternation returns exactly the
maximal same-class runs with the whitespace runs discarded, which
`tokenizeEnglish` below obtains by filtering these runs. -/
def runsAux : List Char → List Char → List (List Char)
  | [], cur => if cur.isEmpty then [] else [cur.reverse]
  | c :: cs, cur =>
    match cur with
    | [] => runsAux cs [c]
    | d :: _ =>
      if tokClass c = tokClass d then runsAux cs (c :: cur)
      else cur.reverse :: runsAux cs [c]

/-- src/app.py line 101: `re.findall` of one-or-more word characters, or
one-or-more characters that are neither whitespace nor word characters. -/
def tokenizeEnglish (text : String) : List String :=
  ((runsAux text.data []).filter (fun r => !pyIsSpace (r.headD ' '))).map String.mk

/-- Python `str.strip()` on a `String`. -/
def pyStripStr (s : String) : String :=
  String.mk (pyStrip s.data)

/-- src/app.py lines 93-119, `process_text_english`.  The loaded
`PerceptronTagger` instance is opaque third-party code; its `tag` method is
the abstract parameter `posTag`, mapping the word list to (word, tag) pairs.
Lines 100-105: tokenize, strip each token, keep the non-empty ones, and
return `None` when nothing remains.  Lines 109-119: tag the words and emit
one triple per pair with the surface token reused as the lemma, returning
`None` when the result list is empty.  (The guard for an unavailable tagger
instance at lines 96-98 is outside the model: the provider is given.) -/
def processTextEnglish (posTag : List String → List (String × String))
    (text : String) : Option (List TaggedToken) :=
  let tokens := tokenizeEnglish text
  let words := (tokens.map pyStripStr).filter (fun w => w ≠ "")
  if words.isEmpty then none
  else
    let results := (posTag words).map (fun tw => TaggedToken.mk tw.1 tw.2 tw.1)
    if results.isEmpty then none else some results

/-! ## Japanese tagging (src/app.py lines 77-90) -/

/-- One node of the fugashi parse, the three attributes the source reads:
the surface form, the first part-of-speech feature, and the optional lemma
(which Python tests for truthiness, so an absent or empty lemma falls back
to the surface form). -/
structure MecabNode where
  surface : String
  pos1 : String
  lemma' : Option String
deriving DecidableEq, Repr

/-- src/app.py lines 77-90, `process_text_japanese`: the fugashi tagger is
the abstract parameter `parseToNodeList`; nodes with an empty surface are
skipped; the lemma falls back to the surface when absent or empty; `None`
is returned when no triples were collected. -/
def processTextJapanese (parseToNodeList : String → List MecabNode)
    (text : String) : Option (List TaggedToken) :=
  let results := ((parseToNodeList text).filter (fun n => n.surface ≠ "")).map
    (fun n => TaggedToken.mk n.surface n.pos1
      (match n.lemma' with
       | some l => if l = "" then n.surface else l
       | none => n.surface))
  if results.isEmpty then none else some results

/-! ## Batch processing loop (src/app.py lines 201-263) -/

/-- One uploaded file as the loop sees it: its name and the result of
reading and UTF-8 decoding its bytes (line 228-229); `none` models a decode
failure (`UnicodeDecodeError`), the exception the surrounding try block
catches. -/
structure UploadedFile where
  name : String
  decoded : Option String
deriving DecidableEq, Repr

/-- The per-file message the loop emits: success with a token count
(line 235), a no-tokens warning (line 237), or a caught failure
(line 240). -/
inductive FileReport where
  | success (name : String) (tokens : Nat)
  | warning (name : String)
  | failure (name : String)
deriving DecidableEq, Repr

/-- One iteration of the processing loop, src/app.py lines 224-242: a file
that fails to decode is reported as a failure and contributes nothing; a
file whose tagging returns `None` is reported as a warning and contributes
nothing; otherwise the data list is stored under the original filename in
the ordered output mapping. -/
def processBatchStep (taggerFunc : String → Option (List TaggedToken))
    (acc : List (String × List TaggedToken) × List FileReport)
    (f : UploadedFile) :
    List (String × List TaggedToken) × List FileReport :=
  match f.decoded with
  | none => (acc.1, acc.2 ++ [FileReport.failure f.name])
  | some text =>
    match taggerFunc text with
    | some dataList =>
        (dictInsert acc.1 f.name dataList,
         acc.2 ++ [FileReport.success f.name dataList.length])
    | none => (acc.1, acc.2 ++ [FileReport.warning f.name])

/-- The whole processing loop over the ordered batch of uploaded files. -/
def processBatch (taggerFunc : String → Option (List TaggedToken))
    (files : List UploadedFile) :
    List (String × List TaggedToken) × List FileReport :=
  files.foldl (processBatchStep taggerFunc) ([], [])

/-- src/app.py lines 217-263, the downloadable outcome of one batch: when
the output mapping is non-empty the zip archive is built from it (lines
247-250); otherwise no archive is produced and an overall failure is
reported (line 263).  Returns the optional archive and the per-file
reports. -/
def tokenizerInterface (taggerFunc : String → Option (List TaggedToken))
    (files : List UploadedFile) (langCode : String) (now : List Nat) :
    Option (List ZipMember) × List FileReport :=
  let pb := processBatch taggerFunc files
  (if pb.1.isEmpty then none else some (createZipArchive now pb.1 langCode), pb.2)

/-- Composition of tagging and XML building for one English file, the body
of one successful loop iteration (lines 231 and 160). -/
def englishFilePipeline (posTag : List String → List (String × String))
    (filename text : String) : Option String :=
  (processTextEnglish posTag text).map (fun d => createXmlContent d filename "EN")

/-- A deterministic stub provider tagging every word with the tag X, used to
instantiate theorems about provider-generic code. -/
def stubTag (ws : List String) : List (String × String) :=
  ws.map (fun w => (w, "X"))

/-- A deterministic stub tagging function at the `tagger_func` level:
one triple for a non-empty text, `None` for the empty text. -/
def someTagger : String → Option (List TaggedToken) :=
  fun s => if s = "" then none else some [TaggedToken.mk s "X" s]

/-! ## Spec-side definitions

The following definitions are not translations of src/app.py; each follows
the words of the specification and exists only to be compared with the
behaviour of the source. -/

/-- Modelled from the spec: the sanitizer as the specification words it,
with the duplicate-upload marker removed only when it is anchored at the
very end of the string (whereas the regex of the source also matches just
before a terminating newline).  For comparison with `sanitizeId`. -/
def sanitizeIdSpec (originalFilename : String) : String :=
  let base := splitextBaseChars originalFilename.data
  let stripped :=
    match dropDupPatternRev base.reverse with
    | some rest => rest.reverse
    | none => base
  String.mk (pyStrip stripped)

/-- The whitespace of the XML S production. -/
def isXmlWs (c : Char) : Bool :=
  c = ' ' || c = '\t' || c = '\n' || c = '\r'

/-- A liberal superset of the XML NameChar class: everything except the
delimiter characters that the XML 1.0 grammar can never put inside a Name.
Being a superset keeps the ending check below a necessary condition. -/
def isXmlNameCharLiberal (c : Char) : Bool :=
  !(c = '"' || c = '\x27' || c = '<' || c = '>' || c = '/' || c = '=' ||
    c = '&' || isXmlWs c)

/-- Modelled from the spec (the well-formedness notion of the claim about
the closing tag): a necessary syntactic condition for a string to be a
well-formed XML document.  Per the XML 1.0 grammar a document is
prolog element Misc*, so after trailing whitespace the document must end
with an end tag, an empty-element tag, a comment, or a processing
instruction.  Looking at the reversed character list, the last
non-whitespace character must be the greater-than sign, preceded by
a double hyphen (comment), a question mark (processing instruction),
a slash (empty-element tag), or optional whitespace, a non-empty Name, and
the two-character end-tag opener. -/
def xmlValidEndingRev (l : List Char) : Prop :=
  let t := l.dropWhile isXmlWs
  t.take 1 = ['>'] ∧
    ((t.drop 1).take 2 = ['-', '-']
     ∨ (t.drop 1).take 1 = ['?']
     ∨ (t.drop 1).take 1 = ['/']
     ∨ (((t.drop 1).dropWhile isXmlWs).takeWhile isXmlNameCharLiberal ≠ []
         ∧ (((t.drop 1).dropWhile isXmlWs).dropWhile isXmlNameCharLiberal).take 2
             = ['/', '<']))

/-- The necessary ending condition for a well-formed XML document, on the
document string. -/
def xmlDocValidEnding (s : String) : Prop :=
  xmlValidEndingRev s.data.reverse

/-! ## Helper lemmas -/

theorem string_data_append (a b : String) : (a ++ b).data = a.data ++ b.data := rfl

theorem takeWhile_all_append {α : Type} (p : α → Bool) (xs : List α) (y : α)
    (ys : List α) (hxs : ∀ c ∈ xs, p c = true) (hy : p y = false) :
    (xs ++ y :: ys).takeWhile p = xs := by
  induction xs with
  | nil => simp [List.takeWhile_cons, hy]
  | cons a t ih =>
    have ha : p a = true := hxs a (List.mem_cons_self a t)
    simp [List.takeWhile_cons, ha]
    exact ih (fun c hc => hxs c (List.mem_cons_of_mem a hc))

theorem dropWhile_all_append {α : Type} (p : α → Bool) (xs : List α) (y : α)
    (ys : List α) (hxs : ∀ c ∈ xs, p c = true) (hy : p y = false) :
    (xs ++ y :: ys).dropWhile p = y :: ys := by
  induction xs with
  | nil => simp [List.dropWhile_cons, hy]
  | cons a t ih =>
    have ha : p a = true := hxs a (List.mem_cons_self a t)
    simp [List.dropWhile_cons, ha]
    exact ih (fun c hc => hxs c (List.mem_cons_of_mem a hc))

theorem dup_reverse_shape (b ds : List Char) :
    (b ++ ' ' :: '(' :: ds ++ [')']).reverse
      = ')' :: (ds.reverse ++ '(' :: ' ' :: b.reverse) := by
  simp

theorem dup_reverse_shape_newline (b ds : List Char) :
    (b ++ ' ' :: '(' :: ds ++ [')', '\n']).reverse
      = '\n' :: ')' :: (ds.reverse ++ '(' :: ' ' :: b.reverse) := by
  simp

/-- The regex of line 132 strips a well-shaped duplicate-upload marker from
the end of the string, and also when a single newline follows it. -/
theorem reSubDup_strips (b ds : List Char) (hne : ds ≠ [])
    (hdig : ∀ c ∈ ds, Char.isDigit c = true) :
    reSubDupChars (b ++ ' ' :: '(' :: ds ++ [')']) = b
    ∧ reSubDupChars (b ++ ' ' :: '(' :: ds ++ [')', '\n']) = b ++ ['\n'] := by
  have hdigrev : ∀ c ∈ ds.reverse, Char.isDigit c = true :=
    fun c hc => hdig c (List.mem_reverse.mp hc)
  have htake := takeWhile_all_append Char.isDigit ds.reverse '(' (' ' :: b.reverse)
    hdigrev (by decide)
  have hdrop := dropWhile_all_append Char.isDigit ds.reverse '(' (' ' :: b.reverse)
    hdigrev (by decide)
  have hrevne : ds.reverse ≠ [] := by simpa using hne
  constructor
  · rw [reSubDupChars, dup_reverse_shape]
    simp [dropDupPatternRev, htake, hdrop, hrevne]
  · rw [reSubDupChars, dup_reverse_shape_newline]
    simp [dropDupPatternRev, htake, hdrop, hrevne]

/-- Claim C1: the line formatter renders a triple as token TAB pos TAB
lemma with no escaping (embedded tabs and newlines pass through verbatim),
a sequence is rendered as the per-triple lines joined with newline, the
empty sequence renders as the empty string, and the cats example holds. -/
theorem c1_format_line_and_block :
    (∀ t : TaggedToken, formatLine t = t.token ++ "\t" ++ t.pos ++ "\t" ++ t.lemma')
    ∧ (∀ ts : List TaggedToken, formatBlock ts = pyJoin "\n" (ts.map formatLine))
    ∧ formatBlock [] = ""
    ∧ formatLine ⟨"cats", "NNS", "cat"⟩ = "cats\tNNS\tcat"
    ∧ formatLine ⟨"a\tb", "P", "x\ny"⟩ = "a\tb\tP\tx\ny"
    ∧ formatBlock [⟨"cats", "NNS", "cat"⟩, ⟨"dogs", "NNS", "dog"⟩]
        = "cats\tNNS\tcat\ndogs\tNNS\tdog" :=
  ⟨fun _ => rfl, fun _ => rfl, rfl, by decide, by decide, by decide⟩

/-- Claim C2 (amended): the sanitized identifier drops the extension,
removes one trailing duplicate-upload marker of the literal shape
space, open parenthesis, digits, close parenthesis when it is anchored at
the end of the string or immediately before a newline that ends the string,
and trims surrounding whitespace; every archive member is named with the
sanitized base followed by the tagged-xml suffix; and the three example
filenames sanitize as the specification states. -/
theorem c2_sanitize_id :
    (∀ b ds : List Char, ds ≠ [] → (∀ c ∈ ds, Char.isDigit c = true) →
      reSubDupChars (b ++ ' ' :: '(' :: ds ++ [')']) = b
      ∧ reSubDupChars (b ++ ' ' :: '(' :: ds ++ [')', '\n']) = b ++ ['\n'])
    ∧ (∀ now od lang, (createZipArchive now od lang).map ZipMember.name
        = od.map (fun p => sanitizeId p.1 ++ "_tagged.xml"))
    ∧ sanitizeId "My File (2).txt" = "My File"
    ∧ sanitizeId "plain.txt" = "plain"
    ∧ sanitizeId "no_ext" = "no_ext" := by
  refine ⟨reSubDup_strips, ?_, by decide, by decide, by decide⟩
  intro now od lang
  simp [createZipArchive]

/-- Witness for C2: the general marker-stripping conjunct evaluated at
concrete inputs. -/
theorem c2_sanitize_id_witness :
    reSubDupChars ("My File".data ++ ' ' :: '(' :: ['2'] ++ [')']) = "My File".data
    ∧ reSubDupChars ("a".data ++ ' ' :: '(' :: ['2'] ++ [')', '\n'])
        = "a".data ++ ['\n'] :=
  ⟨(c2_sanitize_id.1 "My File".data ['2'] (by decide) (by decide)).1,
   (c2_sanitize_id.1 "a".data ['2'] (by decide) (by decide)).2⟩

/-- Counterexample for C2 as frozen: on a filename that ends with a
newline right after the duplicate-upload marker, the source removes the
marker (the Python dollar anchor also matches before a terminating
newline), while the specification formula, anchored at the very end of the
string, keeps it. -/
theorem c2_sanitize_id_counterexample :
    sanitizeId "a (2)\n" = "a" ∧ sanitizeIdSpec "a (2)\n" = "a (2)"
    ∧ sanitizeId "a (2)\n" ≠ sanitizeIdSpec "a (2)\n" :=
  ⟨by decide, by decide, by decide⟩

/-- The character-level decomposition of the produced XML string: the
opening corpus line, the content block, and the closing line that repeats
the attributes of the opening one. -/
theorem createXmlContent_data (d : List TaggedToken) (f l : String) :
    (createXmlContent d f l).data
      = ("<corpus lang=\"" ++ l ++ "\" id=\"" ++ sanitizeId f ++ "\">\n").data
        ++ (formatBlock d).data
        ++ ("\n</corpus lang=\"" ++ l ++ "\" id=\"" ++ sanitizeId f ++ "\">").data := by
  simp [createXmlContent, pyJoin, string_data_append, List.append_assoc]

/-- The produced XML string always ends in a double quote followed by the
greater-than sign. -/
theorem createXmlContent_ends (d : List TaggedToken) (f l : String) :
    ∃ X : List Char, (createXmlContent d f l).data = X ++ ['"', '>'] := by
  refine ⟨("<corpus lang=\"" ++ l ++ "\" id=\"" ++ sanitizeId f ++ "\">\n").data
    ++ (formatBlock d).data
    ++ ("\n</corpus lang=\"" ++ l ++ "\" id=\"" ++ sanitizeId f).data, ?_⟩
  rw [createXmlContent_data]
  have h2 : ("\">" : String).data = ['"', '>'] := rfl
  simp [string_data_append, List.append_assoc, h2]

/-- Claim C3 (amended): every archive member consists of the sanitized name
with the tagged-xml suffix, the processed per-file content encoded as UTF-8
with NO XML declaration prepended, and the write-time timestamp; indeed the
content always begins with the seven characters of the corpus opening tag,
so no declaration line precedes it.  The UTF-8 encoding used is the pure
form of the core encoder. -/
theorem c3_archive_member_content :
    (∀ now od lang, createZipArchive now od lang
      = od.map (fun p => ZipMember.mk (sanitizeId p.1 ++ "_tagged.xml")
          (utf8Bytes (createXmlContent p.2 p.1 lang)) now))
    ∧ (∀ d f l, ((createXmlContent d f l).data.take 7) = "<corpus".data) := by
  constructor
  · intro now od lang
    rfl
  · intro d f l
    have hlen : 7 ≤ ("<corpus lang=\"" : String).data.length := by decide
    have hA : (("<corpus lang=\"" : String).data.take 7) = "<corpus".data := by decide
    rw [createXmlContent_data]
    simp only [string_data_append, List.append_assoc]
    rw [List.take_append_of_le_length hlen]
    exact hA

/-- Counterexample for C3 as frozen: for a concrete entry, the member
content is the UTF-8 bytes of the corpus-wrapped block, whose first five
bytes differ from the first five bytes of the XML declaration line, so no
fixed XML declaration was prepended. -/
theorem c3_member_content_counterexample :
    (createZipArchive [2026, 1, 1, 0, 0, 0] [("f.txt", [⟨"a", "B", "c"⟩])] "EN").map
        (fun m => m.content)
      = [utf8Bytes "<corpus lang=\"EN\" id=\"f\">\na\tB\tc\n</corpus lang=\"EN\" id=\"f\">"]
    ∧ (createZipArchive [2026, 1, 1, 0, 0, 0] [("f.txt", [⟨"a", "B", "c"⟩])] "EN").map
        (fun m => m.content.take 5) = [utf8Bytes "<corp"]
    ∧ utf8Bytes "<corp" ≠ utf8Bytes "<?xml" :=
  ⟨by decide, by decide, by decide⟩

/-- Claim C4 (amended): malformed markup never raises: the source never
parses the input at all, treats every input as plain prose, tags the whole
raw string, and wraps the tagged-line block in the corpus envelope carrying
the language code and sanitized id (not in a text-element envelope).  The
first conjunct runs the whole pipeline on the malformed example with a stub
provider; the second gives the envelope decomposition for every input. -/
theorem c4_whole_input_corpus_envelope :
    englishFilePipeline stubTag "broken.txt" "<doc><p>broken"
      = some ("<corpus lang=\"EN\" id=\"broken\">\n<\tX\t<\ndoc\tX\tdoc\n><\tX\t><\np\tX\tp\n>\tX\t>\nbroken\tX\tbroken\n</corpus lang=\"EN\" id=\"broken\">")
    ∧ (∀ d f l, (createXmlContent d f l).data
        = ("<corpus lang=\"" ++ l ++ "\" id=\"" ++ sanitizeId f ++ "\">\n").data
          ++ (formatBlock d).data
          ++ ("\n</corpus lang=\"" ++ l ++ "\" id=\"" ++ sanitizeId f ++ "\">").data) :=
  ⟨by decide, createXmlContent_data⟩

/-- Counterexample for C4 as frozen: on the malformed example input the
processing returns a value (no error), but its first five characters are
those of the corpus tag, not of the text-element envelope the claim
names. -/
theorem c4_no_text_envelope_counterexample :
    (englishFilePipeline stubTag "broken.txt" "<doc><p>broken").map
        (fun s => String.mk (s.data.take 5)) = some "<corp"
    ∧ ("<corp" : String) ≠ "<text"
    ∧ englishFilePipeline stubTag "broken.txt" "<doc><p>broken" ≠ none :=
  ⟨by decide, by decide, by decide⟩

/-- A string whose last two characters are a double quote and the
greater-than sign does not satisfy the necessary ending condition of a
well-formed XML document: the quote is neither the hyphen of a comment
ending, the question mark of a processing instruction ending, the slash of
an empty-element tag, nor a NameChar or whitespace admissible inside an
end tag. -/
theorem not_xmlValidEndingRev_quote (rest : List Char) :
    ¬ xmlValidEndingRev ('>' :: '"' :: rest) := by
  intro h
  simp only [xmlValidEndingRev, List.dropWhile_cons] at h
  simp [isXmlWs, isXmlNameCharLiberal, List.dropWhile_cons, List.takeWhile_cons] at h

/-- Claim C8: for every token list, filename and language code, the
produced document decomposes into an opening corpus line, the content
block, and a closing line repeating the attributes of the opening tag; and
the document violates a necessary condition for XML well-formedness (after
trailing whitespace a well-formed document must end with an end tag,
empty-element tag, comment or processing instruction, while this one ends
with a quote before the final greater-than sign), so it is never
well-formed XML. -/
theorem c8_malformed_closing_tag : ∀ (d : List TaggedToken) (f l : String),
    (createXmlContent d f l).data
      = ("<corpus lang=\"" ++ l ++ "\" id=\"" ++ sanitizeId f ++ "\">\n").data
        ++ (formatBlock d).data
        ++ ("\n</corpus lang=\"" ++ l ++ "\" id=\"" ++ sanitizeId f ++ "\">").data
    ∧ ¬ xmlDocValidEnding (createXmlContent d f l) := by
  intro d f l
  refine ⟨createXmlContent_data d f l, ?_⟩
  obtain ⟨X, hX⟩ := createXmlContent_ends d f l
  unfold xmlDocValidEnding
  rw [hX, List.reverse_append]
  exact not_xmlValidEndingRev_quote X.reverse

/-- One loop iteration changes the output mapping in a way that depends
only on the output mapping, not on the reports emitted so far. -/
theorem processBatchStep_fst_eq (tf : String → Option (List TaggedToken))
    (a b : List (String × List TaggedToken) × List FileReport)
    (f : UploadedFile) (h : a.1 = b.1) :
    (processBatchStep tf a f).1 = (processBatchStep tf b f).1 := by
  unfold processBatchStep
  cases hf : f.decoded with
  | none => simpa using h
  | some text =>
    cases ht : tf text with
    | none => simp [ht, h]
    | some dl => simp [ht, h]

/-- Folding the loop over a tail preserves equality of the output
mappings of two accumulators. -/
theorem processBatch_foldl_fst_congr (tf : String → Option (List TaggedToken)) :
    ∀ (ys : List UploadedFile) (a b : List (String × List TaggedToken) × List FileReport),
    a.1 = b.1 →
    (ys.foldl (processBatchStep tf) a).1 = (ys.foldl (processBatchStep tf) b).1 := by
  intro ys
  induction ys with
  | nil => intro a b h; simpa using h
  | cons f fs ih =>
    intro a b h
    simp only [List.foldl_cons]
    exact ih _ _ (processBatchStep_fst_eq tf a b f h)

/-- When every file of the batch either fails to decode or is tagged to
no tokens, the loop leaves the output mapping untouched. -/
theorem processBatch_fst_of_all_none (tf : String → Option (List TaggedToken)) :
    ∀ (files : List UploadedFile)
      (acc : List (String × List TaggedToken) × List FileReport),
    (∀ f ∈ files, ∀ text, f.decoded = some text → tf text = none) →
    (files.foldl (processBatchStep tf) acc).1 = acc.1 := by
  intro files
  induction files with
  | nil => intro acc _; rfl
  | cons f fs ih =>
    intro acc hall
    simp only [List.foldl_cons]
    have hstep : (processBatchStep tf acc f).1 = acc.1 := by
      unfold processBatchStep
      cases hf : f.decoded with
      | none => rfl
      | some text =>
        have := hall f (List.mem_cons_self f fs) text hf
        simp [this]
    rw [ih _ (fun g hg => hall g (List.mem_cons_of_mem f hg))]
    exact hstep

/-- Claim C5: a per-file failure is isolated.  First conjunct: removing a
file that fails to decode from anywhere in the batch leaves the output
mapping (hence the archive) unchanged, so the failure never prevents the
processing of subsequent files.  Second conjunct: in a batch of three files
whose second fails to decode, the interface produces an archive with
exactly the two members named after the sanitized base names of the first
and third files. -/
theorem c5_batch_isolation :
    (∀ (tf : String → Option (List TaggedToken)) (xs ys : List UploadedFile)
       (f : UploadedFile), f.decoded = none →
       (processBatch tf (xs ++ f :: ys)).1 = (processBatch tf (xs ++ ys)).1)
    ∧ (∀ (tf : String → Option (List TaggedToken)) (lang : String) (now : List Nat)
         (n1 n2 n3 t1 t3 : String) (d1 d3 : List TaggedToken),
       n1 ≠ n3 → tf t1 = some d1 → tf t3 = some d3 →
       (tokenizerInterface tf [⟨n1, some t1⟩, ⟨n2, none⟩, ⟨n3, some t3⟩] lang now).1
         = some (createZipArchive now [(n1, d1), (n3, d3)] lang)
       ∧ (createZipArchive now [(n1, d1), (n3, d3)] lang).map ZipMember.name
         = [sanitizeId n1 ++ "_tagged.xml", sanitizeId n3 ++ "_tagged.xml"]) := by
  constructor
  · intro tf xs ys f hf
    unfold processBatch
    rw [List.foldl_append, List.foldl_append, List.foldl_cons]
    apply processBatch_foldl_fst_congr
    unfold processBatchStep
    simp [hf]
  · intro tf lang now n1 n2 n3 t1 t3 d1 d3 hne h1 h3
    have hbeq : (n1 == n3) = false := by
      simp [hne]
    constructor
    · simp [tokenizerInterface, processBatch, processBatchStep, h1, h3,
        dictInsert, hbeq]
    · simp [createZipArchive]

/-- Witness for C5: both conjuncts at concrete inputs. -/
theorem c5_batch_isolation_witness :
    (processBatch someTagger
        ([⟨"a.txt", some "x"⟩] ++ (⟨"b.txt", none⟩ : UploadedFile) :: [⟨"c.txt", some "y"⟩])).1
      = (processBatch someTagger ([⟨"a.txt", some "x"⟩] ++ [⟨"c.txt", some "y"⟩])).1
    ∧ (tokenizerInterface someTagger
        [⟨"a.txt", some "x"⟩, ⟨"b.txt", none⟩, ⟨"c.txt", some "y"⟩]
        "EN" [2026, 1, 1, 0, 0, 0]).1
      = some (createZipArchive [2026, 1, 1, 0, 0, 0]
          [("a.txt", [TaggedToken.mk "x" "X" "x"]), ("c.txt", [TaggedToken.mk "y" "X" "y"])] "EN")
    ∧ (createZipArchive [2026, 1, 1, 0, 0, 0]
          [("a.txt", [TaggedToken.mk "x" "X" "x"]), ("c.txt", [TaggedToken.mk "y" "X" "y"])] "EN").map
        ZipMember.name
      = [sanitizeId "a.txt" ++ "_tagged.xml", sanitizeId "c.txt" ++ "_tagged.xml"] := by
  have h := c5_batch_isolation.2 someTagger "EN" [2026, 1, 1, 0, 0, 0]
    "a.txt" "b.txt" "c.txt" "x" "y" [TaggedToken.mk "x" "X" "x"] [TaggedToken.mk "y" "X" "y"]
    (by decide) (by decide) (by decide)
  exact ⟨c5_batch_isolation.1 someTagger [⟨"a.txt", some "x"⟩] [⟨"c.txt", some "y"⟩]
    ⟨"b.txt", none⟩ rfl, h.1, h.2⟩

/-- A whitespace character is not a word character. -/
theorem word_space_disjoint (c : Char) (h : pyIsSpace c = true) :
    isWordChar c = false := by
  simp only [pyIsSpace, Bool.or_eq_true, decide_eq_true_eq] at h
  rcases h with ((((rfl | rfl) | rfl) | rfl) | rfl) | rfl <;> rfl

/-- Over whitespace-only input every run the scanner produces is a
whitespace run, so filtering the whitespace runs away leaves nothing. -/
theorem space_runs_filtered :
    ∀ (l cur : List Char), (∀ c ∈ l, pyIsSpace c = true) →
    (∀ c ∈ cur, pyIsSpace c = true) →
    (runsAux l cur).filter (fun r => !pyIsSpace (r.headD ' ')) = [] := by
  intro l
  induction l with
  | nil =>
    intro cur _ hcur
    cases cur with
    | nil => rfl
    | cons d ds =>
      have hd : pyIsSpace ((d :: ds).reverse.headD ' ') = true := by
        cases hrev : (d :: ds).reverse with
        | nil => simp at hrev
        | cons a t =>
          have ha : a ∈ (d :: ds).reverse := by rw [hrev]; exact List.mem_cons_self a t
          exact hcur a (List.mem_reverse.mp ha)
      have hrun : runsAux [] (d :: ds) = [(d :: ds).reverse] := by
        unfold runsAux; simp
      rw [hrun, List.filter_cons, hd]
      simp
  | cons c cs ih =>
    intro cur hl hcur
    have hc : pyIsSpace c = true := hl c (List.mem_cons_self c cs)
    have hcs : ∀ x ∈ cs, pyIsSpace x = true :=
      fun x hx => hl x (List.mem_cons_of_mem c hx)
    cases cur with
    | nil =>
      simp only [runsAux]
      exact ih [c] hcs (by intro x hx; simp at hx; subst hx; exact hc)
    | cons d ds =>
      have hd : pyIsSpace d = true := hcur d (List.mem_cons_self d ds)
      have htc : tokClass c = 1 := by
        simp [tokClass, word_space_disjoint c hc, hc]
      have htd : tokClass d = 1 := by
        simp [tokClass, word_space_disjoint d hd, hd]
      simp only [runsAux, htc, htd, if_pos rfl]
      exact ih (c :: d :: ds) hcs
        (by
          intro x hx
          rcases List.mem_cons.mp hx with rfl | hx2
          · exact hc
          · exact hcur x hx2)

/-- Tagging whitespace-only English text yields no tokens, hence no data
list, whatever the provider does. -/
theorem processTextEnglish_whitespace_none
    (posTag : List String → List (String × String)) (text : String)
    (h : ∀ c ∈ text.data, pyIsSpace c = true) :
    processTextEnglish posTag text = none := by
  have htok : tokenizeEnglish text = [] := by
    unfold tokenizeEnglish
    rw [space_runs_filtered text.data [] h (by intro c hc; simp at hc)]
    rfl
  unfold processTextEnglish
  rw [htok]
  rfl

/-- Claim C6: a file whose tagging yields no tokens is reported as a
warning and contributes no archive member; whitespace-only English text and
Japanese parses with only empty surfaces both tag to nothing; and a batch
in which every file either fails to decode or tags to nothing produces no
archive at all. -/
theorem c6_empty_result_handling :
    (∀ (posTag : List String → List (String × String)) (text : String),
      (∀ c ∈ text.data, pyIsSpace c = true) → processTextEnglish posTag text = none)
    ∧ (∀ (parseToNodeList : String → List MecabNode) (text : String),
      (∀ n ∈ parseToNodeList text, n.surface = "") →
      processTextJapanese parseToNodeList text = none)
    ∧ (∀ (tf : String → Option (List TaggedToken))
         (acc : List (String × List TaggedToken) × List FileReport)
         (f : UploadedFile) (text : String),
      f.decoded = some text → tf text = none →
      processBatchStep tf acc f = (acc.1, acc.2 ++ [FileReport.warning f.name]))
    ∧ (∀ (tf : String → Option (List TaggedToken)) (files : List UploadedFile)
         (langCode : String) (now : List Nat),
      (∀ f ∈ files, ∀ text, f.decoded = some text → tf text = none) →
      (tokenizerInterface tf files langCode now).1 = none) := by
  refine ⟨processTextEnglish_whitespace_none, ?_, ?_, ?_⟩
  · intro parse text hall
    unfold processTextJapanese
    have : (parse text).filter (fun n => n.surface ≠ "") = [] := by
      rw [List.filter_eq_nil_iff]
      intro n hn
      simp [hall n hn]
    rw [this]
    rfl
  · intro tf acc f text hf ht
    unfold processBatchStep
    rw [hf]
    simp [ht]
  · intro tf files langCode now hall
    have : (processBatch tf files).1 = [] :=
      processBatch_fst_of_all_none tf files ([], []) hall
    simp [tokenizerInterface, this]

/-- Witness for C6: each conjunct at concrete inputs. -/
theorem c6_empty_result_handling_witness :
    processTextEnglish stubTag " \t\n " = none
    ∧ processTextJapanese (fun _ => [MecabNode.mk "" "N" none]) "x" = none
    ∧ processBatchStep (fun _ => none) ([], []) ⟨"w.txt", some "  "⟩
        = ([], [FileReport.warning "w.txt"])
    ∧ (tokenizerInterface (fun _ => none) [⟨"a.txt", some " "⟩] "EN"
        [2026, 1, 1, 0, 0, 0]).1 = none := by
  refine ⟨c6_empty_result_handling.1 stubTag " \t\n " (by decide),
    c6_empty_result_handling.2.1 (fun _ => [MecabNode.mk "" "N" none]) "x" (by decide),
    c6_empty_result_handling.2.2.1 (fun _ => none) ([], []) ⟨"w.txt", some "  "⟩ "  " rfl rfl,
    c6_empty_result_handling.2.2.2 (fun _ => none) [⟨"a.txt", some " "⟩] "EN"
      [2026, 1, 1, 0, 0, 0] ?_⟩
  intro f hf text hd
  rfl

/-- Claim C7: two batch entries with distinct original names but colliding
sanitized base names produce an archive whose two raw members carry the
same name, and after extraction a single member under that name survives,
holding the content written last. -/
theorem c7_duplicate_name_overwrite :
    ∀ (now : List Nat) (lang n1 n2 : String) (d1 d2 : List TaggedToken),
    n1 ≠ n2 → sanitizeId n1 = sanitizeId n2 →
    (createZipArchive now [(n1, d1), (n2, d2)] lang).map ZipMember.name
      = [sanitizeId n1 ++ "_tagged.xml", sanitizeId n1 ++ "_tagged.xml"]
    ∧ zipExtracted (createZipArchive now [(n1, d1), (n2, d2)] lang)
      = [(sanitizeId n1 ++ "_tagged.xml", utf8Bytes (createXmlContent d2 n2 lang))] := by
  intro now lang n1 n2 d1 d2 _ hs
  constructor
  · simp [createZipArchive, hs]
  · simp [createZipArchive, zipExtracted, dictInsert, hs]

/-- Witness for C7: two filenames differing only in the duplicate-upload
marker collide after sanitization and the last write survives. -/
theorem c7_duplicate_name_overwrite_witness :
    (createZipArchive [2026, 1, 1, 0, 0, 0]
        [("doc (1).txt", []), ("doc (2).txt", [TaggedToken.mk "a" "B" "c"])] "EN").map
      ZipMember.name
      = [sanitizeId "doc (1).txt" ++ "_tagged.xml", sanitizeId "doc (1).txt" ++ "_tagged.xml"]
    ∧ zipExtracted (createZipArchive [2026, 1, 1, 0, 0, 0]
        [("doc (1).txt", []), ("doc (2).txt", [TaggedToken.mk "a" "B" "c"])] "EN")
      = [(sanitizeId "doc (1).txt" ++ "_tagged.xml",
          utf8Bytes (createXmlContent [TaggedToken.mk "a" "B" "c"] "doc (2).txt" "EN"))] :=
  c7_duplicate_name_overwrite [2026, 1, 1, 0, 0, 0] "EN" "doc (1).txt" "doc (2).txt"
    [] [TaggedToken.mk "a" "B" "c"] (by decide) (by decide)

/-- Claim C9: whatever pairs the English tagger instance returns, every
triple `process_text_english` produces reuses the surface token as its
lemma, so the lemma field always equals the token field. -/
theorem c9_english_lemma_is_token :
    ∀ (posTag : List String → List (String × String)) (text : String)
      (d : List TaggedToken), processTextEnglish posTag text = some d →
    ∀ t ∈ d, t.lemma' = t.token := by
  intro posTag text d h t ht
  unfold processTextEnglish at h
  by_cases hw : ((tokenizeEnglish text).map pyStripStr).filter (fun w => w ≠ "") |>.isEmpty
  · rw [if_pos hw] at h
    exact absurd h (by simp)
  · rw [if_neg hw] at h
    set results := (posTag (((tokenizeEnglish text).map pyStripStr).filter
      (fun w => w ≠ ""))).map (fun tw => TaggedToken.mk tw.1 tw.2 tw.1) with hres
    by_cases hr : results.isEmpty
    · rw [if_pos hr] at h
      exact absurd h (by simp)
    · rw [if_neg hr] at h
      have hd : results = d := by
        injection h
      rw [← hd] at ht
      rw [hres] at ht
      obtain ⟨tw, _, rfl⟩ := List.mem_map.mp ht
      rfl

/-- Witness for C9: the theorem applied to a concrete run with the stub
provider. -/
theorem c9_english_lemma_is_token_witness :
    (TaggedToken.mk "hi" "X" "hi").lemma' = (TaggedToken.mk "hi" "X" "hi").token :=
  c9_english_lemma_is_token stubTag "hi" [TaggedToken.mk "hi" "X" "hi"] (by decide)
    (TaggedToken.mk "hi" "X" "hi") (by decide)

/-- Claim C10 (amended): the whole operation is a pure function of the
inputs and of the clock reading that the zip writer stamps into each
member: for equal inputs the per-file reports and the member names and
member contents agree across runs regardless of the clock, so everything
except the recorded timestamps is deterministic. -/
theorem c10_determinism_up_to_timestamp :
    (∀ (t1 t2 : List Nat) (od : List (String × List TaggedToken)) (lang : String),
      (createZipArchive t1 od lang).map (fun m => (m.name, m.content))
        = (createZipArchive t2 od lang).map (fun m => (m.name, m.content)))
    ∧ (∀ (tf : String → Option (List TaggedToken)) (files : List UploadedFile)
         (lang : String) (t3 t4 : List Nat),
      ((tokenizerInterface tf files lang t3).1).map
          (fun arc => arc.map (fun m => (m.name, m.content)))
        = ((tokenizerInterface tf files lang t4).1).map
            (fun arc => arc.map (fun m => (m.name, m.content)))
      ∧ (tokenizerInterface tf files lang t3).2
        = (tokenizerInterface tf files lang t4).2) := by
  have hmap : ∀ (t1 t2 : List Nat) (od : List (String × List TaggedToken)) (lang : String),
      (createZipArchive t1 od lang).map (fun m => (m.name, m.content))
        = (createZipArchive t2 od lang).map (fun m => (m.name, m.content)) := by
    intro t1 t2 od lang
    simp [createZipArchive]
  refine ⟨hmap, ?_⟩
  intro tf files lang t3 t4
  constructor
  · by_cases h : (processBatch tf files).1.isEmpty
    · simp [tokenizerInterface, h]
    · simpa [tokenizerInterface, h] using hmap t3 t4 (processBatch tf files).1 lang
  · rfl

/-- Counterexample for C10 as frozen: two runs on equal input whose clock
readings differ by one second produce archives with equal member names and
contents but different bytes, because the recorded timestamps differ. -/
theorem c10_timestamp_counterexample :
    createZipArchive [2026, 2, 3, 4, 5, 6] [("f.txt", [TaggedToken.mk "a" "B" "c"])] "EN"
      ≠ createZipArchive [2026, 2, 3, 4, 5, 7] [("f.txt", [TaggedToken.mk "a" "B" "c"])] "EN"
    ∧ (createZipArchive [2026, 2, 3, 4, 5, 6] [("f.txt", [TaggedToken.mk "a" "B" "c"])] "EN").map
        (fun m => (m.name, m.content))
      = (createZipArchive [2026, 2, 3, 4, 5, 7] [("f.txt", [TaggedToken.mk "a" "B" "c"])] "EN").map
          (fun m => (m.name, m.content)) :=
  ⟨by decide, by decide⟩
